import Mathlib

/-!
Verification of the UrbaneBolt tracking-sync orchestration subsystem.

Shallow embedding of:
- `DistributedRateLimiter`, `DistributedSemaphore`, `CircuitBreaker`
  (backend/src/queue/tracking-queue.ts),
- the sync worker `fetchTracking` / `computeDataHash` / `syncSingleAwb`
  (tracking worker module),
- the scheduler `getAwbsToSync` / `enqueueSyncJobs` / `enqueuePrioritySync` /
  `cleanupOldLogs` (scheduler module),
- `calculate_next_sync` (backend/src/db/schema.sql),
- the dashboard API client `tracking.getByAwb` / `tracking.getMultiple`,
- `CONFIG` (backend/src/config/index.ts).

Timestamps are naturals (milliseconds except where a definition says
minutes).  The Redis Lua scripts of the limiter and semaphore execute
atomically, so a concurrent history is a serialization of script runs; the
embedding is that serialization.
-/

namespace DistributedRateLimiter

/-- The `ZREMRANGEBYSCORE key -inf (now - window)` step of `acquire`:
keep exactly the entries whose score is strictly greater than
`now - window`, i.e. `now < s + w` in truncation-free form. -/
def prune (w now : Nat) (st : List Nat) : List Nat :=
  st.filter (fun s => now < s + w)

/-- One atomic run of the `acquire` Lua script: prune entries older than
the window, count, and insert the new timestamp only when the count is
under the limit; returns whether the slot was granted, with the new
window contents. -/
def acquire (w L now : Nat) (st : List Nat) : Bool × List Nat :=
  if (prune w now st).length < L then (true, now :: prune w now st)
  else (false, prune w now st)

/-- The timestamps of the successful `acquire` calls of a serialized
history of calls at times `ts`, started from window contents `st`. -/
def successTimes (w L : Nat) : List Nat → List Nat → List Nat
  | _, [] => []
  | st, t :: ts =>
    if (acquire w L t st).1 then t :: successTimes w L (acquire w L t st).2 ts
    else successTimes w L (acquire w L t st).2 ts

/-- The 60000 ms sliding window used by the tracking rate limiter. -/
def windowMs : Nat := 60000

end DistributedRateLimiter

namespace DistributedSemaphore

/-- A semaphore entry: `(requestId, score)` in the Redis sorted set. -/
abbrev Entry := Nat × Nat

/-- The `ZREMRANGEBYSCORE key -inf (now - ttl)` step: drop entries whose
score has expired. -/
def pruneSem (ttl now : Nat) (st : List Entry) : List Entry :=
  st.filter (fun e => now < e.2 + ttl)

/-- `ZADD key now requestId`: update the score when the member exists,
otherwise insert it. -/
def zadd (st : List Entry) (id now : Nat) : List Entry :=
  if st.any (fun e => e.1 == id) then
    st.map (fun e => if e.1 == id then (id, now) else e)
  else (id, now) :: st

/-- One atomic run of the semaphore `acquire` Lua script. -/
def acquire (maxC ttl id now : Nat) (st : List Entry) : Bool × List Entry :=
  let p := pruneSem ttl now st
  if p.length < maxC then (true, zadd p id now) else (false, p)

/-- `release(requestId)` = `ZREM key requestId`. -/
def release (id : Nat) (st : List Entry) : List Entry :=
  st.filter (fun e => e.1 != id)

/-- An operation against the shared semaphore key. -/
inductive SemOp
  | acq (id now : Nat)
  | rel (id : Nat)
deriving DecidableEq

/-- Apply one operation to the semaphore state. -/
def step (maxC ttl : Nat) (st : List Entry) : SemOp → List Entry
  | .acq id now => (acquire maxC ttl id now st).2
  | .rel id => release id st

/-- Run a serialized history of operations from the empty key. -/
def run (maxC ttl : Nat) (ops : List SemOp) : List Entry :=
  ops.foldl (step maxC ttl) []

/-- The slots held at instant `now`: entries not yet expired. -/
def heldCount (ttl now : Nat) (st : List Entry) : Nat :=
  (pruneSem ttl now st).length

end DistributedSemaphore

namespace Config

/-- JavaScript `parseInt` on the decimal strings that occur as values of
the numeric environment variables: the leading run of digits, `none` when
there is no digit (NaN). -/
def parseIntJS (s : String) : Option Nat :=
  let ds := s.data.takeWhile Char.isDigit
  if ds.isEmpty then none
  else some (ds.foldl (fun n c => n * 10 + (c.toNat - 48)) 0)

/-- `process.env.X || dflt`: the empty string and an unset variable both
fall back to the default. -/
def envOr (v : Option String) (dflt : String) : String :=
  match v with
  | none => dflt
  | some s => if s = "" then dflt else s

/-- `CONFIG.MAX_CONCURRENT_REQUESTS = parseInt(process.env.MAX_CONCURRENT_REQUESTS || '20')`.
No clamping is applied to the parsed value. -/
def maxConcurrentRequests (env : Option String) : Option Nat :=
  parseIntJS (envOr env "20")

/-- `CONFIG.REQUESTS_PER_MINUTE = parseInt(process.env.REQUESTS_PER_MINUTE || '60')`. -/
def requestsPerMinute (env : Option String) : Option Nat :=
  parseIntJS (envOr env "60")

end Config

namespace CircuitBreaker

/-- The `status` field of the breaker Redis hash. -/
inductive CBStatus
  | closed
  | opened
  | halfOpen
deriving DecidableEq

/-- The breaker Redis hash: `status` is absent until first written,
`failures` and `openedAt` read as `0` when absent (`parseInt(x || '0')`,
`hincrby` starting from `0`). -/
structure CBState where
  status : Option CBStatus
  failures : Nat
  openedAt : Nat
deriving DecidableEq

/-- The state of a fresh breaker key. -/
def initCB : CBState := ⟨none, 0, 0⟩

/-- `isOpen()`: when the status is `open` and `now - openedAt` exceeds the
reset timeout, transition to `half-open` and return `false`; while `open`
within the timeout return `true`; in every other status return `false`. -/
def isOpen (resetTimeout now : Nat) (st : CBState) : Bool × CBState :=
  match st.status with
  | some .opened =>
    if resetTimeout < now - st.openedAt then
      (false, { st with status := some .halfOpen })
    else (true, st)
  | _ => (false, st)

/-- `recordSuccess()`: status `closed`, failures `0`. -/
def recordSuccess (st : CBState) : CBState :=
  { st with status := some .closed, failures := 0 }

/-- `recordFailure()`: increment failures; when the result reaches the
threshold, set status `open` and stamp `openedAt`. -/
def recordFailure (threshold now : Nat) (st : CBState) : CBState :=
  let f := st.failures + 1
  if threshold ≤ f then ⟨some .opened, f, now⟩
  else { st with failures := f }

/-- An operation against the shared breaker key. -/
inductive CBOp
  | check (now : Nat)
  | success
  | failure (now : Nat)
deriving DecidableEq

/-- Apply one operation to the breaker state. -/
def cbStep (threshold resetTimeout : Nat) (st : CBState) : CBOp → CBState
  | .check now => (isOpen resetTimeout now st).2
  | .success => recordSuccess st
  | .failure now => recordFailure threshold now st

/-- Run a serialized history of breaker operations from a fresh key. -/
def cbRun (threshold resetTimeout : Nat) (ops : List CBOp) : CBState :=
  ops.foldl (cbStep threshold resetTimeout) initCB

end CircuitBreaker

namespace Schema

/-- The base interval of `calculate_next_sync`, in minutes:
`DDL`/`CAN` 24 h, `RTO` 12 h, `OFD`/`DDS` 30 min, `UDD` 2 h, else 1 h
(a `NULL` status code falls to the `ELSE` branch). -/
def baseIntervalMinutes : Option String → Nat
  | some "DDL" => 1440
  | some "RTO" => 720
  | some "CAN" => 1440
  | some "OFD" => 30
  | some "DDS" => 30
  | some "UDD" => 120
  | _ => 60

/-- `calculate_next_sync(status, failures)` from schema.sql, with `NOW()`
passed explicitly and times in minutes: base interval by status class,
multiplied by `LEAST(POWER(2, failures)::INTEGER, 24)` when failures are
positive. -/
def calculate_next_sync (now : Nat) (status : Option String) (failures : Nat) : Nat :=
  let base := baseIntervalMinutes status
  let withBackoff := if 0 < failures then base * min (2 ^ failures) 24 else base
  now + withBackoff

end Schema

namespace Worker

/-- The upstream shipment object the worker reads
(`data.data[0]` of the tracking response); only the fields the worker
touches are modelled.  `scans` is the scan-event array, carried as a list
of opaque event ids because only its length is read. -/
structure ApiData where
  awbNumber : String
  currentStatusCode : Option String
  currentStatusDateTime : Option String
  currentStatusCodeDescription : Option String
  currentLocation : Option String
  isRto : Option Bool
  scans : Option (List Nat)
  shipperName : Option String
  origin : Option String
  destination : Option String
  productType : Option String
  weight : Option Nat
deriving DecidableEq

/-- The value hashed by `computeDataHash`.  The SHA-256 digest of the
JSON of these five fields is modelled as the field tuple itself (the
digest is injective on the relevant data, so digest equality is field
equality). -/
structure DataHash where
  statusCode : Option String
  statusDateTime : Option String
  currentLocation : Option String
  isRto : Option Bool
  scansCount : Nat
deriving DecidableEq

/-- `computeDataHash`: digest over status code, status timestamp,
location, RTO flag and scan count (`data.scans?.length || 0`). -/
def computeDataHash (d : ApiData) : DataHash :=
  ⟨d.currentStatusCode, d.currentStatusDateTime, d.currentLocation, d.isRto,
    (d.scans.map List.length).getD 0⟩

/-- The error a sync attempt can raise. -/
inductive SyncError
  | breakerOpen
  | rateLimitTimeout
  | concurrencyTimeout
  | httpError (status : Nat)
  | invalidResponse
deriving DecidableEq

/-- What the upstream interaction of `fetchTracking` would produce for
one call: the two quota timeouts, a non-OK HTTP response, a response
without `status = 'Success'` and `data[0]`, or good data. -/
inductive FetchOutcome
  | rateLimitTimeout
  | concurrencyTimeout
  | httpError (status : Nat)
  | invalidResponse
  | ok (d : ApiData)
deriving DecidableEq

/-- `fetchTracking` as observed by the breaker and the caller: quota
timeouts and upstream errors are thrown without touching the breaker
inside this function; on good data `circuitBreaker.recordSuccess()` runs
and the shipment object is returned.  (The semaphore slot is always
released in the `finally` block; the slot bookkeeping itself is the
`DistributedSemaphore` model.) -/
def fetchTracking (cb : CircuitBreaker.CBState) (outcome : FetchOutcome) :
    Except SyncError ApiData × CircuitBreaker.CBState :=
  match outcome with
  | .rateLimitTimeout => (.error .rateLimitTimeout, cb)
  | .concurrencyTimeout => (.error .concurrencyTimeout, cb)
  | .httpError s => (.error (.httpError s), cb)
  | .invalidResponse => (.error .invalidResponse, cb)
  | .ok d => (.ok d, CircuitBreaker.recordSuccess cb)

/-- The columns of a `shipments` row that the sync path reads or writes. -/
structure ShipmentRow where
  awb : String
  status_code : Option String
  status_desc : Option String
  current_location : Option String
  shipper_name : Option String
  origin : Option String
  destination : Option String
  product_type : Option String
  weight : Option Nat
  is_rto : Option Bool
  raw_data : Option ApiData
  data_hash : Option DataHash
  last_synced_at : Option Nat
  next_sync_at : Option Nat
  sync_failures : Nat
  last_error : Option SyncError
deriving DecidableEq

/-- A `sync_logs` row as inserted by the worker (`changed` and the other
absent columns are NULL when the INSERT omits them). -/
structure SyncLogRow where
  batch_id : String
  awb : String
  success : Bool
  changed : Option Bool
  error_code : Option String
  error_message : Option SyncError
  response_time_ms : Option Nat
deriving DecidableEq

/-- The outcome `syncSingleAwb` returns. -/
structure SyncResult where
  success : Bool
  changed : Bool
deriving DecidableEq

/-- The `catch` block of `syncSingleAwb`: `circuitBreaker.recordFailure()`,
then `sync_failures = LEAST(sync_failures + 1, 10)` with `last_error` and
`next_sync_at = calculate_next_sync(status_code, LEAST(sync_failures + 1, 10))`
(both computed from the pre-update row), then a `success = FALSE` log row
with `error.code || 'UNKNOWN'` (an `Error` has no `code`, hence
`UNKNOWN`). -/
def failPath (threshold now : Nat) (cb : CircuitBreaker.CBState)
    (row : ShipmentRow) (batchId : String) (e : SyncError) :
    SyncResult × CircuitBreaker.CBState × ShipmentRow × List SyncLogRow :=
  let f := min (row.sync_failures + 1) 10
  (⟨false, false⟩,
   CircuitBreaker.recordFailure threshold now cb,
   { row with
      sync_failures := f,
      last_error := some e,
      next_sync_at := some (Schema.calculate_next_sync now row.status_code f) },
   [⟨batchId, row.awb, false, none, some "UNKNOWN", some e, none⟩])

/-- The `ON CONFLICT (awb) DO UPDATE` branch of the full upsert: every
cached field is replaced from the fresh API data, `data_hash` is the new
digest, `next_sync_at` is recomputed from the fresh status with zero
failures, and `last_error` is cleared. -/
def upsertRow (row : ShipmentRow) (d : ApiData) (h : DataHash) (now : Nat) : ShipmentRow :=
  { row with
      status_code := d.currentStatusCode,
      status_desc := d.currentStatusCodeDescription,
      current_location := d.currentLocation,
      shipper_name := d.shipperName,
      origin := d.origin,
      destination := d.destination,
      product_type := d.productType,
      weight := d.weight,
      is_rto := d.isRto,
      raw_data := some d,
      data_hash := some h,
      last_synced_at := some now,
      next_sync_at := some (Schema.calculate_next_sync now d.currentStatusCode 0),
      sync_failures := 0,
      last_error := none }

/-- `syncSingleAwb` for one AWB whose stored row is `row`: breaker check,
fetch, change detection against the stored `data_hash`, then either the
metadata-only update (unchanged), the full upsert plus a
`success, changed = TRUE` log row (changed; the logged
`response_time_ms` is `Date.now()`), or the failure path.  Returns
`(result, breaker, updated row, inserted log rows)`. -/
def syncSingleAwb (threshold resetTimeout now : Nat)
    (cb : CircuitBreaker.CBState) (outcome : FetchOutcome)
    (row : ShipmentRow) (batchId : String) :
    SyncResult × CircuitBreaker.CBState × ShipmentRow × List SyncLogRow :=
  let checked := CircuitBreaker.isOpen resetTimeout now cb
  if checked.1 then
    failPath threshold now checked.2 row batchId .breakerOpen
  else
    match fetchTracking checked.2 outcome with
    | (.error e, cb2) => failPath threshold now cb2 row batchId e
    | (.ok d, cb2) =>
      let newHash := computeDataHash d
      if row.data_hash = some newHash then
        (⟨true, false⟩, cb2,
         { row with
            last_synced_at := some now,
            next_sync_at :=
              some (Schema.calculate_next_sync now row.status_code row.sync_failures),
            sync_failures := 0 },
         [])
      else
        (⟨true, true⟩, cb2, upsertRow row d newHash now,
         [⟨batchId, row.awb, true, some true, none, none, some now⟩])

end Worker

namespace Scheduler

/-- The columns of a `shipments` row the scheduler reads. -/
structure Shipment where
  awb : String
  status_code : Option String
  next_sync_at : Option Nat
  sync_priority : Nat
  sync_failures : Nat
deriving DecidableEq

/-- `next_sync_at <= NOW()`: a NULL `next_sync_at` compares to nothing in
SQL, so the row is not selected. -/
def isDue (now : Nat) (r : Shipment) : Bool :=
  match r.next_sync_at with
  | some t => t ≤ now
  | none => false

/-- The WHERE clause of `getAwbsToSync`:
`next_sync_at <= NOW() AND sync_failures < 10`. -/
def dueFilter (now : Nat) (r : Shipment) : Bool :=
  isDue now r && r.sync_failures < 10

/-- The ORDER BY key of `getAwbsToSync`:
`(sync_priority ASC, next_sync_at ASC, sync_failures ASC)`. -/
def orderKey (r : Shipment) : Nat × Nat × Nat :=
  (r.sync_priority, r.next_sync_at.getD 0, r.sync_failures)

/-- `getAwbsToSync(limit)` over table contents `rows`: filter due
non-quarantined rows, order, take `limit`, project `awb`. -/
def getAwbsToSync (now lim : Nat) (rows : List Shipment) : List String :=
  ((((rows.filter (dueFilter now)).mergeSort
      (fun a b => decide (orderKey a ≤ orderKey b))).take lim).map (fun r => r.awb))

/-- The SELECT of `enqueuePrioritySync`:
`status_code IN ('OFD', 'UDD', 'DDS') AND next_sync_at <= NOW() LIMIT 100`
(table order; no ORDER BY and no `sync_failures` condition in the query). -/
def prioritySelect (now : Nat) (rows : List Shipment) : List Shipment :=
  (rows.filter (fun r =>
    (r.status_code == some "OFD" || r.status_code == some "UDD"
      || r.status_code == some "DDS") && isDue now r)).take 100

/-- A job as enqueued on the tracking queue. -/
structure SyncJob where
  name : String
  jtype : String
  awbs : List String
  batchId : String
  priority : Nat
  delay : Nat
deriving DecidableEq

/-- The chunking loop of `enqueueSyncJobs`: slices of `CONFIG.BATCH_SIZE = 20`. -/
def chunk20Go : Nat → List String → List (List String)
  | _, [] => []
  | 0, _ => []
  | n + 1, x :: xs => ((x :: xs).take 20) :: chunk20Go n ((x :: xs).drop 20)

/-- Entry point of the chunking loop: the loop advances by 20 and each
round consumes at least one element, so `l.length` rounds of fuel are
enough. -/
def chunk20 (l : List String) : List (List String) :=
  chunk20Go l.length l

/-- `enqueueSyncJobs` after `getAwbsToSync` returned `awbs`, with the one
`batchId = uuidv4()` drawn for this sweep: nothing when no AWB is due,
otherwise one job per 20-AWB slice, every job carrying the same sweep
`batchId`, priority 5 and a `index * 1000` ms stagger delay. -/
def enqueueSyncJobs (batchId : String) (awbs : List String) : List SyncJob :=
  if awbs.isEmpty then []
  else
    (chunk20 awbs).enum.map (fun p =>
      ⟨"sync-batch-" ++ batchId ++ "-" ++ toString p.1, "batch", p.2, batchId, 5,
        p.1 * 1000⟩)

/-- The columns of a `sync_batches` row the worker touches. -/
structure BatchRow where
  batch_id : String
  total_awbs : Nat
  status : String
  started_at : Option Nat
deriving DecidableEq

/-- The batch-record upsert run when a job begins:
`INSERT ... VALUES (batchId, total, 'running', NOW())
ON CONFLICT (batch_id) DO UPDATE SET status = 'running', started_at = NOW()`. -/
def startBatch (batchId : String) (total now : Nat) (tbl : List BatchRow) : List BatchRow :=
  if tbl.any (fun r => r.batch_id == batchId) then
    tbl.map (fun r =>
      if r.batch_id == batchId then { r with status := "running", started_at := some now }
      else r)
  else ⟨batchId, total, "running", some now⟩ :: tbl

/-- A `sync_logs` row as the retention sweep sees it. -/
structure LogRow where
  awb : String
  created_at : Nat
deriving DecidableEq

/-- A `sync_batches` row as the retention sweep sees it. -/
structure BatchAuditRow where
  batch_id : String
  created_at : Nat
deriving DecidableEq

/-- The tables the scheduler process can write. -/
structure SchedDb where
  shipments : List Shipment
  sync_logs : List LogRow
  sync_batches : List BatchAuditRow
deriving DecidableEq

/-- `cleanupOldLogs`: `DELETE FROM sync_logs WHERE created_at < NOW() - 7 days`
and `DELETE FROM sync_batches WHERE created_at < NOW() - 30 days`
(times in minutes here, so 7 days = 10080 and 30 days = 43200). -/
def cleanupOldLogs (now : Nat) (db : SchedDb) : SchedDb :=
  { db with
      sync_logs := db.sync_logs.filter (fun l => !(l.created_at < now - 10080)),
      sync_batches := db.sync_batches.filter (fun b => !(b.created_at < now - 43200)) }

end Scheduler

namespace ApiClient

/-- The sanitization of the dashboard API client:
`awb.replace(/[^a-zA-Z0-9]/g, '')`. -/
def sanitizeAwb (awb : String) : String :=
  String.mk (awb.data.filter Char.isAlphanum)

/-- The tracking endpoint path the client requests in `getByAwb` and
`getMultiple`: the sanitized AWB is interpolated after `?awb=`. -/
def getByAwbUrl (awb : String) : String :=
  "/api/v1/services/tracking/?awb=" ++ sanitizeAwb awb

/-- The URL the worker's `fetchTracking` requests:
`${CONFIG.API_BASE_URL}/api/v1/services/tracking/?awb=${awb}` — the AWB
is interpolated as passed, with no sanitization. -/
def fetchTrackingUrl (base awb : String) : String :=
  base ++ "/api/v1/services/tracking/?awb=" ++ awb

/-- A JavaScript value as far as `getMultiple`'s input filtering can
distinguish it: a string, or any non-string entry. -/
inductive JsVal
  | str (s : String)
  | other
deriving DecidableEq

/-- `awb && typeof awb === 'string'`: keeps exactly the non-empty
strings (the empty string is falsy). -/
def isNonEmptyStr : JsVal → Bool
  | .str s => !(s == "")
  | .other => false

/-- The string payload of a kept entry. -/
def strVal : JsVal → String
  | .str s => s
  | .other => ""

/-- The tracking response envelope `{status, data, error}`. -/
structure TrackResponse where
  status : String
  rdata : Option (List Worker.ApiData)
  error : Option String
deriving DecidableEq

/-- One element of the `Promise.allSettled` result array. A fulfilled
request can still carry `null` for a body. -/
inductive Settled
  | fulfilled (v : Option TrackResponse)
  | rejected (msg : String)
deriving DecidableEq

/-- One element of the array `getMultiple` returns. -/
structure MultiResult where
  awb : String
  success : Bool
  mdata : Option Worker.ApiData
  error : Option String
deriving DecidableEq

/-- `[...new Set(l)]`: first occurrences, in insertion order. -/
def dedupAux (seen : List String) : List String → List String
  | [] => []
  | x :: xs => if x ∈ seen then dedupAux seen xs else x :: dedupAux (x :: seen) xs

/-- The sanitization pipeline of `getMultiple` before the requests:
drop non-strings and empty strings, strip each entry to alphanumerics,
drop entries that became empty, deduplicate keeping first occurrences,
truncate to the first 20. -/
def retainedAwbs (input : List JsVal) : List String :=
  (dedupAux []
    (((input.filter isNonEmptyStr).map (fun v => sanitizeAwb (strVal v))).filter
      (fun s => 0 < s.length))).take 20

/-- The per-AWB result assembly of `getMultiple`: success exactly when
the request fulfilled with a non-null body whose `status` is `'Success'`
and whose `data` array is non-empty; then `data[0]` is extracted.  A
rejected request contributes its reason as `error`. -/
def assembleResult (awb : String) : Settled → MultiResult
  | .fulfilled (some r) =>
    if r.status == "Success" && (match r.rdata with
        | some l => 0 < l.length
        | none => false) then
      ⟨awb, true, r.rdata.bind List.head?, none⟩
    else ⟨awb, false, none, none⟩
  | .fulfilled none => ⟨awb, false, none, none⟩
  | .rejected m => ⟨awb, false, none, some m⟩

/-- `tracking.getMultiple(awbList)`, with the settled response for each
requested endpoint given by `resp` (the chunked `batchFetch` preserves
the order of its endpoint list, so the result array lines up with the
retained AWBs positionally). -/
def getMultiple (input : List JsVal) (resp : String → Settled) : List MultiResult :=
  (retainedAwbs input).map (fun awb => assembleResult awb (resp awb))

end ApiClient

namespace Worker

/-- A concrete upstream shipment object, for instantiating theorems. -/
def sampleData : ApiData :=
  ⟨"200", some "OFD", some "2026-01-01", some "Out for Delivery", some "BLR",
    some false, some [1, 2], some "S", some "O", some "D", some "PPD", some 5⟩

/-- A stored row whose `data_hash` matches `sampleData`, for
instantiating theorems. -/
def sampleRow : ShipmentRow :=
  ⟨"200", some "OFD", some "Out for Delivery", some "BLR", some "S", some "O",
    some "D", some "PPD", some 5, some false, some sampleData,
    some (computeDataHash sampleData), some 0, some 0, 0, none⟩

end Worker

/-! ## Backoff policy (C6) -/

/-- C6: for every status code `s` and failure count `f ≥ 0` the computed
next sync time equals `now + base_interval(s) * min(2^f, 24)`, the
computed interval is monotone non-decreasing in `f`, and the base
intervals are 24 h for delivered/cancelled, 12 h for return-to-origin,
30 min for out-for-delivery/delivery-scheduled, 2 h for undelivered and
1 h otherwise. -/
theorem calculate_next_sync_spec (now : Nat) (s : Option String) (f : Nat) :
    Schema.calculate_next_sync now s f
      = now + Schema.baseIntervalMinutes s * min (2 ^ f) 24 ∧
    (∀ g, f ≤ g →
      Schema.calculate_next_sync now s f ≤ Schema.calculate_next_sync now s g) ∧
    Schema.baseIntervalMinutes (some "DDL") = 24 * 60 ∧
    Schema.baseIntervalMinutes (some "CAN") = 24 * 60 ∧
    Schema.baseIntervalMinutes (some "RTO") = 12 * 60 ∧
    Schema.baseIntervalMinutes (some "OFD") = 30 ∧
    Schema.baseIntervalMinutes (some "DDS") = 30 ∧
    Schema.baseIntervalMinutes (some "UDD") = 2 * 60 ∧
    Schema.baseIntervalMinutes none = 60 := by
  have hval : ∀ g, Schema.calculate_next_sync now s g
      = now + Schema.baseIntervalMinutes s * min (2 ^ g) 24 := by
    intro g
    cases g with
    | zero => simp [Schema.calculate_next_sync]
    | succ n => simp [Schema.calculate_next_sync]
  refine ⟨hval f, ?_, by decide, by decide, by decide, by decide, by decide, by decide,
    by decide⟩
  intro g hg
  rw [hval f, hval g]
  have h2 : (2 : Nat) ^ f ≤ 2 ^ g := Nat.pow_le_pow_right (by norm_num) hg
  exact Nat.add_le_add_left (Nat.mul_le_mul (Nat.le_refl _) (min_le_min h2 (Nat.le_refl 24))) now

/-- Witness for C6 at a concrete status and failure counts. -/
theorem calculate_next_sync_spec_witness :
    Schema.calculate_next_sync 0 (some "UDD") 3
      = 0 + Schema.baseIntervalMinutes (some "UDD") * min (2 ^ 3) 24 ∧
    Schema.calculate_next_sync 0 (some "UDD") 3
      ≤ Schema.calculate_next_sync 0 (some "UDD") 5 :=
  ⟨(calculate_next_sync_spec 0 (some "UDD") 3).1,
   (calculate_next_sync_spec 0 (some "UDD") 3).2.1 5 (by decide)⟩

/-! ## AWB sanitization (C9) -/

/-- C9 counterexample: the worker's `fetchTracking` builds the upstream
query by interpolating the AWB verbatim, so the `awb` parameter of the
URL built from the input `AB-1` is `AB-1` itself, which contains the
non-alphanumeric character `-`. -/
theorem fetchTracking_unsanitized_cex :
    ApiClient.fetchTrackingUrl "" "AB-1" = "/api/v1/services/tracking/?awb=AB-1" ∧
    ¬ ("AB-1".data.all Char.isAlphanum = true) := by decide

/-- C9 amended: the dashboard client's `getByAwb` sanitizes the AWB to
alphanumeric characters before building the tracking query (every
character of the interpolated value is in `[a-zA-Z0-9]`), but the
worker's `fetchTracking` builds its query from the AWB as passed,
without sanitization. -/
theorem awb_sanitization_spec (base awb : String) :
    (∀ c ∈ (ApiClient.sanitizeAwb awb).data, c.isAlphanum = true) ∧
    ApiClient.getByAwbUrl awb
      = "/api/v1/services/tracking/?awb=" ++ ApiClient.sanitizeAwb awb ∧
    ApiClient.fetchTrackingUrl base awb
      = base ++ "/api/v1/services/tracking/?awb=" ++ awb := by
  refine ⟨?_, rfl, rfl⟩
  intro c hc
  have hc' : c ∈ awb.data.filter Char.isAlphanum := hc
  exact (List.mem_filter.mp hc').2

/-- Witness for C9 (amended) at a concrete AWB. -/
theorem awb_sanitization_spec_witness :
    'A'.isAlphanum = true ∧
    ApiClient.getByAwbUrl "AB-1"
      = "/api/v1/services/tracking/?awb=" ++ ApiClient.sanitizeAwb "AB-1" :=
  ⟨(awb_sanitization_spec "" "AB-1").1 'A' (by decide),
   (awb_sanitization_spec "" "AB-1").2.1⟩

/-! ## Concurrency semaphore (C2) -/

theorem zadd_length_le (st : List DistributedSemaphore.Entry) (id now : Nat) :
    (DistributedSemaphore.zadd st id now).length ≤ st.length + 1 := by
  unfold DistributedSemaphore.zadd
  split
  · simp
  · simp

theorem semStep_length_le (maxC ttl : Nat) (st : List DistributedSemaphore.Entry)
    (op : DistributedSemaphore.SemOp) (h : st.length ≤ maxC) :
    (DistributedSemaphore.step maxC ttl st op).length ≤ maxC := by
  cases op with
  | acq id now =>
    simp only [DistributedSemaphore.step, DistributedSemaphore.acquire]
    split
    · next hp => exact le_trans (zadd_length_le _ id now) hp
    · next hp =>
      exact le_trans (List.length_filter_le _ st) h
  | rel id =>
    exact le_trans (List.length_filter_le _ st) h

theorem semFoldl_length_le (maxC ttl : Nat) :
    ∀ (ops : List DistributedSemaphore.SemOp) (st : List DistributedSemaphore.Entry),
      st.length ≤ maxC →
      (ops.foldl (DistributedSemaphore.step maxC ttl) st).length ≤ maxC := by
  intro ops
  induction ops with
  | nil => intro st h; simpa using h
  | cons op ops ih =>
    intro st h
    exact ih _ (semStep_length_le maxC ttl st op h)

/-- C2 amended: for every serialized history of `acquire`/`release`
operations against the semaphore key (crash = never calling `release`,
covered by the TTL prune inside `acquire`), the number of held
(non-expired) slots at any instant never exceeds the configured
`maxConcurrent`.  The configuration itself, however, is
`parseInt(env || '20')` with no clamping, so the ceiling is 20 only by
default, not by enforcement. -/
theorem semaphore_held_le_max (maxC ttl : Nat)
    (ops : List DistributedSemaphore.SemOp) (now : Nat) :
    DistributedSemaphore.heldCount ttl now (DistributedSemaphore.run maxC ttl ops) ≤ maxC :=
  le_trans (List.length_filter_le _ _)
    (semFoldl_length_le maxC ttl ops [] (Nat.zero_le maxC))

/-- C2 counterexample: `CONFIG.MAX_CONCURRENT_REQUESTS` does not clamp
the environment value to 20 — with `MAX_CONCURRENT_REQUESTS=25` the
configured ceiling is 25, and a history of 21 distinct successful
acquisitions leaves 21 slots held at once, exceeding 20. -/
theorem semaphore_twenty_cap_cex :
    Config.maxConcurrentRequests (some "25") = some 25 ∧
    DistributedSemaphore.heldCount 60000 0
      (DistributedSemaphore.run 25 60000
        ((List.range 21).map (fun i => DistributedSemaphore.SemOp.acq i 0))) = 21 ∧
    20 < 21 := by decide

/-! ## Scheduler quarantine (C7) -/

/-- C7 counterexample: the priority sweep's SELECT filters only on
status and dueness — a due `OFD` shipment with `sync_failures = 10` is
selected by `enqueuePrioritySync` despite being at the failure cap. -/
theorem prioritySweep_failure_cap_cex :
    Scheduler.prioritySelect 0 [⟨"X", some "OFD", some 0, 5, 10⟩]
      = [⟨"X", some "OFD", some 0, 5, 10⟩] ∧
    10 ≤ (Scheduler.Shipment.mk "X" (some "OFD") (some 0) 5 10).sync_failures := by decide

/-- C7 amended: the full sweep (`getAwbsToSync`) selects only shipments
with `sync_failures < 10`; the retention sweep deletes only audit-log
and batch rows, never shipment rows; and the worker's failure path keeps
`sync_failures` capped at 10.  The priority sweep, however, filters only
on status and dueness and can select a shipment at the failure cap
(see the counterexample). -/
theorem scheduler_quarantine_spec (now lim : Nat) (rows : List Scheduler.Shipment)
    (cleanNow : Nat) (db : Scheduler.SchedDb)
    (thr wnow : Nat) (cb : CircuitBreaker.CBState) (row : Worker.ShipmentRow)
    (bid : String) (e : Worker.SyncError) :
    (∀ awb ∈ Scheduler.getAwbsToSync now lim rows,
      ∃ r ∈ rows, r.awb = awb ∧ r.sync_failures < 10) ∧
    (Scheduler.cleanupOldLogs cleanNow db).shipments = db.shipments ∧
    (Worker.failPath thr wnow cb row bid e).2.2.1.sync_failures ≤ 10 := by
  refine ⟨?_, rfl, ?_⟩
  · intro awb hawb
    obtain ⟨r, hr, hreq⟩ := List.mem_map.mp hawb
    have hr' : r ∈ (rows.filter (Scheduler.dueFilter now)).mergeSort
        (fun a b => decide (Scheduler.orderKey a ≤ Scheduler.orderKey b)) :=
      List.take_subset _ _ hr
    have hr'' : r ∈ rows.filter (Scheduler.dueFilter now) :=
      (List.mergeSort_perm _ _).mem_iff.mp hr'
    obtain ⟨hmem, hdue⟩ := List.mem_filter.mp hr''
    refine ⟨r, hmem, hreq, ?_⟩
    have := (Bool.and_eq_true _ _).mp hdue
    simpa using this.2
  · simp only [Worker.failPath]
    exact min_le_right _ _

/-- Witness for C7 (amended) at a concrete table and failure path. -/
theorem scheduler_quarantine_spec_witness :
    (∃ r ∈ [(⟨"X", some "OFD", some 0, 5, 0⟩ : Scheduler.Shipment)],
      r.awb = "X" ∧ r.sync_failures < 10) ∧
    (Worker.failPath 5 7 CircuitBreaker.initCB Worker.sampleRow "b"
      Worker.SyncError.rateLimitTimeout).2.2.1.sync_failures ≤ 10 :=
  ⟨(scheduler_quarantine_spec 0 10 [⟨"X", some "OFD", some 0, 5, 0⟩] 0
      ⟨[], [], []⟩ 5 7 CircuitBreaker.initCB Worker.sampleRow "b"
      Worker.SyncError.rateLimitTimeout).1 "X"
      (by simp [Scheduler.getAwbsToSync, Scheduler.dueFilter, Scheduler.isDue]),
   (scheduler_quarantine_spec 0 10 [⟨"X", some "OFD", some 0, 5, 0⟩] 0
      ⟨[], [], []⟩ 5 7 CircuitBreaker.initCB Worker.sampleRow "b"
      Worker.SyncError.rateLimitTimeout).2.2⟩

/-! ## Batch identity (C8) -/

/-- C8 counterexample: one full sweep over 21 due AWBs enqueues two
distinct jobs (different names, different delays) that carry the same
sweep-level `batchId`, so distinct enqueued jobs do not have distinct
batch ids. -/
theorem enqueueSyncJobs_shared_batchId_cex :
    (Scheduler.enqueueSyncJobs "B" (List.replicate 21 "A")).map
        (fun j => j.name) = ["sync-batch-B-0", "sync-batch-B-1"] ∧
    (Scheduler.enqueueSyncJobs "B" (List.replicate 21 "A")).map
        (fun j => j.batchId) = ["B", "B"] := by decide

/-- C8 amended: every job enqueued by one full sweep carries that
sweep's single `batchId` (one SyncBatch per sweep, not per job), and
when a job begins running the worker upserts the batch record for its
`batchId` with status `running` and `started_at` stamped, creating the
row when absent. -/
theorem syncBatch_upsert_spec (batchId : String) (awbs : List String)
    (total now : Nat) (tbl : List Scheduler.BatchRow) :
    (∀ j ∈ Scheduler.enqueueSyncJobs batchId awbs, j.batchId = batchId) ∧
    (∃ r ∈ Scheduler.startBatch batchId total now tbl,
      r.batch_id = batchId ∧ r.status = "running" ∧ r.started_at = some now) := by
  constructor
  · intro j hj
    simp only [Scheduler.enqueueSyncJobs] at hj
    split at hj
    · simp at hj
    · obtain ⟨p, _, hpj⟩ := List.mem_map.mp hj
      rw [← hpj]
  · unfold Scheduler.startBatch
    split
    · next hany =>
      obtain ⟨r, hr, hbeq⟩ := List.any_eq_true.mp hany
      have heq : r.batch_id = batchId := by simpa using hbeq
      refine ⟨{ r with status := "running", started_at := some now }, ?_, by simpa, rfl, rfl⟩
      have := List.mem_map_of_mem (fun r : Scheduler.BatchRow =>
        if r.batch_id == batchId then
          { r with status := "running", started_at := some now } else r) hr
      simpa [heq] using this
    · exact ⟨⟨batchId, total, "running", some now⟩, List.mem_cons_self _ _, rfl, rfl, rfl⟩

/-- Witness for C8 (amended) at a concrete sweep and batch table. -/
theorem syncBatch_upsert_spec_witness :
    (⟨"sync-batch-B-0", "batch", ["A"], "B", 5, 0⟩ : Scheduler.SyncJob).batchId = "B" ∧
    (∃ r ∈ Scheduler.startBatch "B" 1 9 [],
      r.batch_id = "B" ∧ r.status = "running" ∧ r.started_at = some 9) :=
  ⟨(syncBatch_upsert_spec "B" ["A"] 1 9 []).1 _ (by decide),
   (syncBatch_upsert_spec "B" ["A"] 1 9 []).2⟩

/-! ## Worker sync paths (C4, C5) -/

theorem isOpen_snd_failures (rt now : Nat) (st : CircuitBreaker.CBState) :
    (CircuitBreaker.isOpen rt now st).2.failures = st.failures := by
  unfold CircuitBreaker.isOpen
  rcases st with ⟨status, f, oa⟩
  match status with
  | none => rfl
  | some .closed => rfl
  | some .halfOpen => rfl
  | some .opened =>
    simp only
    split <;> rfl

theorem recordFailure_failures (thr now : Nat) (st : CircuitBreaker.CBState) :
    (CircuitBreaker.recordFailure thr now st).failures = st.failures + 1 := by
  simp only [CircuitBreaker.recordFailure]
  split <;> rfl

/-- C4 counterexample: a sync whose upstream data agrees with the stored
record on all five relevant fields takes the unchanged path, which
inserts no `sync_logs` row at all — so no `success = true, changed = false`
row is ever written (the skip is only counted in metrics). -/
theorem syncUnchanged_no_log_cex :
    (Worker.syncSingleAwb 5 30000 100 CircuitBreaker.initCB (.ok Worker.sampleData)
        Worker.sampleRow "b").2.2.2 = [] ∧
    (Worker.syncSingleAwb 5 30000 100 CircuitBreaker.initCB (.ok Worker.sampleData)
        Worker.sampleRow "b").1 = ⟨true, false⟩ := by decide

/-- C4 amended: when the breaker allows the call and the upstream
response's digest equals the stored `data_hash`, the worker does not
rewrite the full shipment record — it updates only `last_synced_at` and
`next_sync_at` and resets `sync_failures` — and it returns
`success = true, changed = false`; it inserts no sync-log row for the
unchanged attempt. -/
theorem syncUnchanged_spec (thr rt now : Nat) (cb : CircuitBreaker.CBState)
    (d : Worker.ApiData) (row : Worker.ShipmentRow) (bid : String)
    (hopen : (CircuitBreaker.isOpen rt now cb).1 = false)
    (hhash : row.data_hash = some (Worker.computeDataHash d)) :
    Worker.syncSingleAwb thr rt now cb (.ok d) row bid =
      (⟨true, false⟩,
       CircuitBreaker.recordSuccess (CircuitBreaker.isOpen rt now cb).2,
       { row with
          last_synced_at := some now,
          next_sync_at :=
            some (Schema.calculate_next_sync now row.status_code row.sync_failures),
          sync_failures := 0 },
       []) := by
  unfold Worker.syncSingleAwb
  simp only [hopen, Bool.false_eq_true, if_false, Worker.fetchTracking, hhash]
  simp

/-- Witness for C4 (amended) at a concrete breaker state, row and
response. -/
theorem syncUnchanged_spec_witness :
    Worker.syncSingleAwb 5 30000 100 CircuitBreaker.initCB (.ok Worker.sampleData)
        Worker.sampleRow "b" =
      (⟨true, false⟩,
       CircuitBreaker.recordSuccess (CircuitBreaker.isOpen 30000 100 CircuitBreaker.initCB).2,
       { Worker.sampleRow with
          last_synced_at := some 100,
          next_sync_at :=
            some (Schema.calculate_next_sync 100 Worker.sampleRow.status_code
              Worker.sampleRow.sync_failures),
          sync_failures := 0 },
       []) :=
  syncUnchanged_spec 5 30000 100 CircuitBreaker.initCB Worker.sampleData
    Worker.sampleRow "b" (by decide) (by decide)

/-- C5 counterexample: a rate-limit slot timeout on its own — with the
breaker closed and no upstream error — still increments the circuit
breaker's failure counter, because the worker's catch block calls
`recordFailure()` for every error. -/
theorem quotaError_breaker_cex :
    CircuitBreaker.initCB.failures = 0 ∧
    (Worker.syncSingleAwb 5 30000 100 CircuitBreaker.initCB
        Worker.FetchOutcome.rateLimitTimeout Worker.sampleRow "b").2.1.failures = 1 := by
  decide

/-- C5 amended: a quota error (rate-limit slot timeout or
concurrency-slot timeout) is recorded as a failed sync attempt for the
shipment (failed result, `sync_failures` bumped toward the cap, a
`success = false` log row) AND it increments the circuit breaker's
failure counter by one, because the catch block of `syncSingleAwb`
records a breaker failure for every error, quota errors included. -/
theorem quotaError_spec (thr rt now : Nat) (cb : CircuitBreaker.CBState)
    (row : Worker.ShipmentRow) (bid : String) (outcome : Worker.FetchOutcome)
    (hopen : (CircuitBreaker.isOpen rt now cb).1 = false)
    (hq : outcome = .rateLimitTimeout ∨ outcome = .concurrencyTimeout) :
    (Worker.syncSingleAwb thr rt now cb outcome row bid).1 = ⟨false, false⟩ ∧
    (Worker.syncSingleAwb thr rt now cb outcome row bid).2.1.failures
      = cb.failures + 1 ∧
    (Worker.syncSingleAwb thr rt now cb outcome row bid).2.2.1.sync_failures
      = min (row.sync_failures + 1) 10 ∧
    (∀ l ∈ (Worker.syncSingleAwb thr rt now cb outcome row bid).2.2.2,
      l.success = false) := by
  have hrun : ∀ e, Worker.syncSingleAwb thr rt now cb outcome row bid
      = Worker.failPath thr now (CircuitBreaker.isOpen rt now cb).2 row bid e →
      (Worker.syncSingleAwb thr rt now cb outcome row bid).1 = ⟨false, false⟩ ∧
      (Worker.syncSingleAwb thr rt now cb outcome row bid).2.1.failures
        = cb.failures + 1 ∧
      (Worker.syncSingleAwb thr rt now cb outcome row bid).2.2.1.sync_failures
        = min (row.sync_failures + 1) 10 ∧
      (∀ l ∈ (Worker.syncSingleAwb thr rt now cb outcome row bid).2.2.2,
        l.success = false) := by
    intro e he
    rw [he]
    refine ⟨rfl, ?_, rfl, ?_⟩
    · show (CircuitBreaker.recordFailure thr now
        (CircuitBreaker.isOpen rt now cb).2).failures = cb.failures + 1
      rw [recordFailure_failures, isOpen_snd_failures]
    · intro l hl
      simp only [Worker.failPath, List.mem_singleton] at hl
      rw [hl]
  rcases hq with h | h <;> subst h
  · exact hrun .rateLimitTimeout (by
      unfold Worker.syncSingleAwb
      simp only [hopen, Bool.false_eq_true, if_false, Worker.fetchTracking])
  · exact hrun .concurrencyTimeout (by
      unfold Worker.syncSingleAwb
      simp only [hopen, Bool.false_eq_true, if_false, Worker.fetchTracking])

/-- Witness for C5 (amended) at a concrete breaker state and row. -/
theorem quotaError_spec_witness :
    (Worker.syncSingleAwb 5 30000 100 CircuitBreaker.initCB
        Worker.FetchOutcome.concurrencyTimeout Worker.sampleRow "b").1
      = ⟨false, false⟩ ∧
    (Worker.syncSingleAwb 5 30000 100 CircuitBreaker.initCB
        Worker.FetchOutcome.concurrencyTimeout Worker.sampleRow "b").2.1.failures
      = CircuitBreaker.initCB.failures + 1 :=
  ⟨(quotaError_spec 5 30000 100 CircuitBreaker.initCB Worker.sampleRow "b"
      Worker.FetchOutcome.concurrencyTimeout (by decide) (Or.inr rfl)).1,
   (quotaError_spec 5 30000 100 CircuitBreaker.initCB Worker.sampleRow "b"
      Worker.FetchOutcome.concurrencyTimeout (by decide) (Or.inr rfl)).2.1⟩

/-! ## Circuit breaker state machine (C3) -/

theorem recordFailure_foldl (thr : Nat) :
    ∀ (nows : List Nat) (st : CircuitBreaker.CBState),
      (nows.foldl (fun s n => CircuitBreaker.recordFailure thr n s) st).failures
        = st.failures + nows.length ∧
      (nows.foldl (fun s n => CircuitBreaker.recordFailure thr n s) st).status
        = (if thr ≤ st.failures + nows.length ∧ 1 ≤ nows.length
           then some CircuitBreaker.CBStatus.opened else st.status) := by
  intro nows
  induction nows with
  | nil => intro st; simp
  | cons n ns ih =>
    intro st
    simp only [List.foldl_cons, List.length_cons]
    rcases le_or_lt thr (st.failures + 1) with h1 | h1
    · have hrf : CircuitBreaker.recordFailure thr n st
          = ⟨some .opened, st.failures + 1, n⟩ := by
        simp only [CircuitBreaker.recordFailure]
        rw [if_pos h1]
      rw [hrf]
      obtain ⟨ihf, ihs⟩ := ih ⟨some .opened, st.failures + 1, n⟩
      refine ⟨by simpa [Nat.add_assoc, Nat.add_comm 1 ns.length] using ihf, ?_⟩
      rw [ihs]
      have hcond : thr ≤ st.failures + (ns.length + 1) ∧ 1 ≤ ns.length + 1 :=
        ⟨by omega, by omega⟩
      rw [if_pos hcond]
      split <;> rfl
    · have hrf : CircuitBreaker.recordFailure thr n st
          = { st with failures := st.failures + 1 } := by
        simp only [CircuitBreaker.recordFailure]
        rw [if_neg (by omega)]
      rw [hrf]
      obtain ⟨ihf, ihs⟩ := ih { st with failures := st.failures + 1 }
      refine ⟨by simpa [Nat.add_assoc, Nat.add_comm 1 ns.length] using ihf, ?_⟩
      rw [ihs]
      dsimp only
      split_ifs <;> first | rfl | (exfalso; omega)

/-- The reachability invariant of the breaker: a non-closed status is
only ever reached with at least `threshold` recorded failures. -/
def cbInv (thr : Nat) (st : CircuitBreaker.CBState) : Prop :=
  (st.status = some CircuitBreaker.CBStatus.opened
    ∨ st.status = some CircuitBreaker.CBStatus.halfOpen) → thr ≤ st.failures

theorem cbStep_inv (thr rt : Nat) (st : CircuitBreaker.CBState)
    (op : CircuitBreaker.CBOp) (h : cbInv thr st) :
    cbInv thr (CircuitBreaker.cbStep thr rt st op) := by
  cases op with
  | check now =>
    simp only [CircuitBreaker.cbStep, CircuitBreaker.isOpen]
    rcases st with ⟨status, f, oa⟩
    match status with
    | none => exact h
    | some .closed => exact h
    | some .halfOpen => exact h
    | some .opened =>
      simp only
      split
      · intro _; exact h (Or.inl rfl)
      · exact h
  | success =>
    intro hs
    rcases hs with hs | hs <;> simp [CircuitBreaker.cbStep, CircuitBreaker.recordSuccess] at hs
  | failure now =>
    simp only [CircuitBreaker.cbStep, CircuitBreaker.recordFailure]
    split
    · next hle => intro _; exact hle
    · next hlt =>
      intro hs
      exact le_trans (h hs) (Nat.le_succ _)

theorem cbRun_inv (thr rt : Nat) (ops : List CircuitBreaker.CBOp) :
    cbInv thr (CircuitBreaker.cbRun thr rt ops) := by
  have main : ∀ (l : List CircuitBreaker.CBOp) (st : CircuitBreaker.CBState),
      cbInv thr st → cbInv thr (l.foldl (CircuitBreaker.cbStep thr rt) st) := by
    intro l
    induction l with
    | nil => intro st h; exact h
    | cons op l ih =>
      intro st h
      exact ih _ (cbStep_inv thr rt st op h)
  refine main ops CircuitBreaker.initCB ?_
  intro hs
  rcases hs with hs | hs <;> simp [CircuitBreaker.initCB] at hs

/-- C3: the breaker state machine. (a) Starting from a fresh key, a run
of consecutive `recordFailure()` calls with no intervening success has
status `open` exactly when it contains at least `threshold` calls — so
the status becomes `open` after exactly `threshold` of them. (b) While
`open` with the reset timeout not yet exceeded, `isOpen()` returns
`true` (no upstream call) and leaves the state unchanged. (c) Once
`now - openedAt` exceeds the reset timeout, the first `isOpen()` call
transitions the status to `half-open` and returns `false`, permitting a
probe. (d) `recordSuccess()` closes the breaker and resets failures to
0. (e) In `half-open`, `isOpen()` returns `false` (the probe is
allowed). (f) From any reachable `half-open` state, a `recordFailure()`
re-opens the breaker. -/
theorem circuitBreaker_spec (thr rt : Nat) (hthr : 1 ≤ thr) :
    (∀ nows : List Nat,
      (CircuitBreaker.cbRun thr rt (nows.map CircuitBreaker.CBOp.failure)).status
          = some CircuitBreaker.CBStatus.opened
        ↔ thr ≤ nows.length) ∧
    (∀ (st : CircuitBreaker.CBState) (now : Nat),
      st.status = some CircuitBreaker.CBStatus.opened → now - st.openedAt ≤ rt →
      CircuitBreaker.isOpen rt now st = (true, st)) ∧
    (∀ (st : CircuitBreaker.CBState) (now : Nat),
      st.status = some CircuitBreaker.CBStatus.opened → rt < now - st.openedAt →
      CircuitBreaker.isOpen rt now st
        = (false, { st with status := some CircuitBreaker.CBStatus.halfOpen })) ∧
    (∀ st : CircuitBreaker.CBState,
      (CircuitBreaker.recordSuccess st).status = some CircuitBreaker.CBStatus.closed
        ∧ (CircuitBreaker.recordSuccess st).failures = 0) ∧
    (∀ (st : CircuitBreaker.CBState) (now : Nat),
      st.status = some CircuitBreaker.CBStatus.halfOpen →
      (CircuitBreaker.isOpen rt now st).1 = false) ∧
    (∀ (ops : List CircuitBreaker.CBOp) (now : Nat),
      (CircuitBreaker.cbRun thr rt ops).status = some CircuitBreaker.CBStatus.halfOpen →
      (CircuitBreaker.recordFailure thr now
          (CircuitBreaker.cbRun thr rt ops)).status
        = some CircuitBreaker.CBStatus.opened) := by
  refine ⟨?_, ?_, ?_, ?_, ?_, ?_⟩
  · intro nows
    have hfold : CircuitBreaker.cbRun thr rt (nows.map CircuitBreaker.CBOp.failure)
        = nows.foldl (fun s n => CircuitBreaker.recordFailure thr n s)
            CircuitBreaker.initCB := by
      simp [CircuitBreaker.cbRun, List.foldl_map, CircuitBreaker.cbStep]
    rw [hfold, (recordFailure_foldl thr nows CircuitBreaker.initCB).2]
    constructor
    · intro h
      by_contra hc
      rw [if_neg (by simp [CircuitBreaker.initCB]; omega)] at h
      simp [CircuitBreaker.initCB] at h
    · intro h
      rw [if_pos ⟨by simpa [CircuitBreaker.initCB] using h, by omega⟩]
  · intro st now hst hle
    rcases st with ⟨status, f, oa⟩
    subst hst
    simp only [CircuitBreaker.isOpen]
    rw [if_neg (by simpa using Nat.not_lt.mpr hle)]
  · intro st now hst hlt
    rcases st with ⟨status, f, oa⟩
    subst hst
    simp only [CircuitBreaker.isOpen]
    rw [if_pos (by simpa using hlt)]
  · intro st
    exact ⟨rfl, rfl⟩
  · intro st now hst
    rcases st with ⟨status, f, oa⟩
    subst hst
    rfl
  · intro ops now hs
    have hinv := cbRun_inv thr rt ops (Or.inr hs)
    simp only [CircuitBreaker.recordFailure]
    rw [if_pos (le_trans hinv (Nat.le_succ _))]

/-- Witness for C3 at `threshold = 5`, `resetTimeout = 30000`:
five consecutive failures open the breaker, four do not, an `isOpen()`
within the window holds, one after the window half-opens, and a failure
from that half-open run re-opens. -/
theorem circuitBreaker_spec_witness :
    (CircuitBreaker.cbRun 5 30000 ([10, 20, 30, 40, 50].map
        CircuitBreaker.CBOp.failure)).status = some CircuitBreaker.CBStatus.opened ∧
    ¬ (CircuitBreaker.cbRun 5 30000 ([10, 20, 30, 40].map
        CircuitBreaker.CBOp.failure)).status = some CircuitBreaker.CBStatus.opened ∧
    CircuitBreaker.isOpen 30000 100 ⟨some CircuitBreaker.CBStatus.opened, 5, 50⟩
      = (true, ⟨some CircuitBreaker.CBStatus.opened, 5, 50⟩) ∧
    CircuitBreaker.isOpen 30000 40000 ⟨some CircuitBreaker.CBStatus.opened, 5, 50⟩
      = (false, ⟨some CircuitBreaker.CBStatus.halfOpen, 5, 50⟩) ∧
    (CircuitBreaker.recordFailure 5 90000
        (CircuitBreaker.cbRun 5 30000
          ([10, 20, 30, 40, 50].map CircuitBreaker.CBOp.failure
            ++ [CircuitBreaker.CBOp.check 40000]))).status
      = some CircuitBreaker.CBStatus.opened :=
  ⟨((circuitBreaker_spec 5 30000 (by decide)).1 [10, 20, 30, 40, 50]).mpr (by decide),
   fun h => by
     have := ((circuitBreaker_spec 5 30000 (by decide)).1 [10, 20, 30, 40]).mp h
     simp at this,
   (circuitBreaker_spec 5 30000 (by decide)).2.1 ⟨some .opened, 5, 50⟩ 100 rfl (by decide),
   (circuitBreaker_spec 5 30000 (by decide)).2.2.1 ⟨some .opened, 5, 50⟩ 40000 rfl (by decide),
   (circuitBreaker_spec 5 30000 (by decide)).2.2.2.2.2
     ([10, 20, 30, 40, 50].map CircuitBreaker.CBOp.failure
       ++ [CircuitBreaker.CBOp.check 40000]) 90000 (by decide)⟩

/-! ## Client batching pipeline (C10) -/

theorem dedupAux_sublist : ∀ (l seen : List String),
    (ApiClient.dedupAux seen l).Sublist l := by
  intro l
  induction l with
  | nil => intro seen; simp [ApiClient.dedupAux]
  | cons x xs ih =>
    intro seen
    simp only [ApiClient.dedupAux]
    split
    · exact (ih seen).trans (List.sublist_cons_self x xs)
    · exact (ih (x :: seen)).cons₂ x

theorem dedupAux_nodup : ∀ (l seen : List String),
    (ApiClient.dedupAux seen l).Nodup ∧ ∀ x ∈ ApiClient.dedupAux seen l, x ∉ seen := by
  intro l
  induction l with
  | nil => intro seen; simp [ApiClient.dedupAux]
  | cons x xs ih =>
    intro seen
    simp only [ApiClient.dedupAux]
    split
    · exact ih seen
    · next hx =>
      obtain ⟨ihnd, ihseen⟩ := ih (x :: seen)
      refine ⟨List.nodup_cons.mpr ⟨fun hmem => ihseen x hmem (List.mem_cons_self x seen), ihnd⟩, ?_⟩
      intro y hy
      rcases List.mem_cons.mp hy with rfl | hy'
      · exact hx
      · intro hseen
        exact ihseen y hy' (List.mem_cons_of_mem x hseen)

theorem assembleResult_awb (awb : String) (s : ApiClient.Settled) :
    (ApiClient.assembleResult awb s).awb = awb := by
  unfold ApiClient.assembleResult
  rcases s with v | m
  · rcases v with _ | r
    · rfl
    · dsimp only
      split <;> rfl
  · rfl

/-- C10: `tracking.getMultiple` drops non-string (and empty) entries,
strips each AWB to alphanumerics, drops entries that became empty,
deduplicates keeping first occurrences in order (the retained list is a
duplicate-free sublist of the sanitized list), silently truncates to the
first 20, and returns exactly one result per retained AWB in that order;
a result has `success = true` only when the response for its AWB
fulfilled with a non-null body whose status is `'Success'` and whose
data array is non-empty. -/
theorem getMultiple_spec (input : List ApiClient.JsVal)
    (resp : String → ApiClient.Settled) :
    (ApiClient.getMultiple input resp).map (fun r => r.awb)
      = ApiClient.retainedAwbs input ∧
    (ApiClient.getMultiple input resp).length ≤ 20 ∧
    (ApiClient.retainedAwbs input).Nodup ∧
    (ApiClient.retainedAwbs input).Sublist
      (((input.filter ApiClient.isNonEmptyStr).map
            (fun v => ApiClient.sanitizeAwb (ApiClient.strVal v))).filter
          (fun s => 0 < s.length)) ∧
    (∀ r ∈ ApiClient.getMultiple input resp, r.success = true →
      ∃ tr, resp r.awb = .fulfilled (some tr) ∧ tr.status = "Success" ∧
        ∃ ds, tr.rdata = some ds ∧ 0 < ds.length) := by
  refine ⟨?_, ?_, ?_, ?_, ?_⟩
  · unfold ApiClient.getMultiple
    rw [List.map_map]
    have hcomp : ((fun r : ApiClient.MultiResult => r.awb) ∘
        (fun awb => ApiClient.assembleResult awb (resp awb))) = id :=
      funext fun awb => assembleResult_awb awb (resp awb)
    rw [hcomp, List.map_id]
  · unfold ApiClient.getMultiple ApiClient.retainedAwbs
    rw [List.length_map]
    exact List.length_take_le 20 _
  · unfold ApiClient.retainedAwbs
    exact ((dedupAux_nodup _ []).1.sublist (List.take_sublist 20 _))
  · unfold ApiClient.retainedAwbs
    exact (List.take_sublist 20 _).trans (dedupAux_sublist _ [])
  · intro r hr hsucc
    obtain ⟨awb, _, hra⟩ := List.mem_map.mp hr
    rcases hresp : resp awb with v | m
    · rcases v with _ | tr
      · rw [hresp] at hra
        unfold ApiClient.assembleResult at hra
        dsimp only at hra
        rw [← hra] at hsucc
        simp at hsucc
      · rw [hresp] at hra
        unfold ApiClient.assembleResult at hra
        dsimp only at hra
        by_cases hcond : (tr.status == "Success" && (match tr.rdata with
            | some l => decide (0 < l.length)
            | none => false)) = true
        · rw [if_pos hcond] at hra
          obtain ⟨hst, hdat⟩ := Bool.and_eq_true_iff.mp hcond
          have hsteq : tr.status = "Success" := by simpa using hst
          have hawb : r.awb = awb := by rw [← hra]
          refine ⟨tr, by rw [hawb, hresp], hsteq, ?_⟩
          rcases hd : tr.rdata with _ | ds
          · rw [hd] at hdat; simp at hdat
          · rw [hd] at hdat
            exact ⟨ds, rfl, by simpa using hdat⟩
        · rw [if_neg hcond] at hra
          rw [← hra] at hsucc
          simp at hsucc
    · rw [hresp] at hra
      unfold ApiClient.assembleResult at hra
      dsimp only at hra
      rw [← hra] at hsucc
      simp at hsucc

/-- Witness for C10 at a concrete input list and response map: the
entry `A-1` sanitizes to `A1`, the non-string entry and the duplicate
are dropped, and the successful response yields a `success = true`
result backed by a fulfilled `Success` body. -/
theorem getMultiple_spec_witness :
    (ApiClient.getMultiple [.str "A-1", .other, .str "A1"]
        (fun _ => .fulfilled (some ⟨"Success", some [Worker.sampleData], none⟩))).map
        (fun r => r.awb) = ["A1"] ∧
    (∃ tr, (fun _ : String => ApiClient.Settled.fulfilled
          (some (⟨"Success", some [Worker.sampleData], none⟩ : ApiClient.TrackResponse)))
        "A1" = .fulfilled (some tr) ∧ tr.status = "Success" ∧
        ∃ ds, tr.rdata = some ds ∧ 0 < ds.length) := by
  constructor
  · have h := (getMultiple_spec [.str "A-1", .other, .str "A1"]
      (fun _ => .fulfilled (some ⟨"Success", some [Worker.sampleData], none⟩))).1
    rw [h]
    decide
  · have h := (getMultiple_spec [.str "A-1", .other, .str "A1"]
      (fun _ => .fulfilled (some ⟨"Success", some [Worker.sampleData], none⟩))).2.2.2.2
      ⟨"A1", true, some Worker.sampleData, none⟩ (by decide) rfl
    exact h

/-! ## Rate limiter sliding window (C1) -/

theorem acquire_pos (w L now : Nat) (st : List Nat)
    (hp : (DistributedRateLimiter.prune w now st).length < L) :
    DistributedRateLimiter.acquire w L now st
      = (true, now :: DistributedRateLimiter.prune w now st) := by
  unfold DistributedRateLimiter.acquire
  rw [if_pos hp]

theorem acquire_neg (w L now : Nat) (st : List Nat)
    (hp : ¬ (DistributedRateLimiter.prune w now st).length < L) :
    DistributedRateLimiter.acquire w L now st
      = (false, DistributedRateLimiter.prune w now st) := by
  unfold DistributedRateLimiter.acquire
  rw [if_neg hp]

theorem filter_prune_eq (w u t : Nat) (st : List Nat) (h : u ≤ t) :
    (DistributedRateLimiter.prune w u st).filter (fun s => t < s + w)
      = st.filter (fun s => t < s + w) := by
  unfold DistributedRateLimiter.prune
  rw [List.filter_filter]
  apply List.filter_congr
  intro a _
  by_cases hq : t < a + w
  · have hp : u < a + w := lt_of_le_of_lt h hq
    simp [hp, hq]
  · simp [hq]

theorem successTimes_sublist (w L : Nat) :
    ∀ (ts st : List Nat), (DistributedRateLimiter.successTimes w L st ts).Sublist ts := by
  intro ts
  induction ts with
  | nil => intro st; simp [DistributedRateLimiter.successTimes]
  | cons t ts ih =>
    intro st
    simp only [DistributedRateLimiter.successTimes]
    split
    · exact (ih _).cons₂ t
    · exact (ih _).trans (List.sublist_cons_self t ts)

theorem successTimes_split (w L : Nat) :
    ∀ (ts st S₁ S₂ : List Nat) (t : Nat),
      ts.Pairwise (· ≤ ·) →
      (∀ s ∈ st, ∀ u ∈ ts, s ≤ u) →
      DistributedRateLimiter.successTimes w L st ts = S₁ ++ t :: S₂ →
      ((st ++ S₁).filter (fun s => t < s + w)).length < L ∧ t ∈ ts := by
  intro ts
  induction ts with
  | nil =>
    intro st S₁ S₂ t _ _ h
    simp [DistributedRateLimiter.successTimes] at h
  | cons u ts ih =>
    intro st S₁ S₂ t hsort hbnd h
    have hsort' : ts.Pairwise (· ≤ ·) := (List.pairwise_cons.mp hsort).2
    have hu : ∀ x ∈ ts, u ≤ x := (List.pairwise_cons.mp hsort).1
    simp only [DistributedRateLimiter.successTimes] at h
    by_cases hp : (DistributedRateLimiter.prune w u st).length < L
    · rw [acquire_pos w L u st hp] at h
      dsimp only at h
      rw [if_pos rfl] at h
      cases S₁ with
      | nil =>
        simp only [List.nil_append, List.cons.injEq] at h
        obtain ⟨rfl, _⟩ := h
        refine ⟨?_, List.mem_cons_self u ts⟩
        simpa [DistributedRateLimiter.prune] using hp
      | cons v S₁' =>
        simp only [List.cons_append, List.cons.injEq] at h
        obtain ⟨rfl, h2⟩ := h
        have hbnd' : ∀ s ∈ u :: DistributedRateLimiter.prune w u st, ∀ x ∈ ts, s ≤ x := by
          intro s hs x hx
          rcases List.mem_cons.mp hs with rfl | hs'
          · exact hu x hx
          · exact hbnd s (List.mem_of_mem_filter hs') x (List.mem_cons_of_mem u hx)
        obtain ⟨ihlen, iht⟩ := ih (u :: DistributedRateLimiter.prune w u st) S₁' S₂ t
          hsort' hbnd' h2
        have hut : u ≤ t := hu t iht
        have hst := filter_prune_eq w u t st hut
        refine ⟨?_, List.mem_cons_of_mem u iht⟩
        have hlen := congrArg List.length hst
        by_cases hqu : t < u + w <;>
          simp [List.filter_append, List.filter_cons, hqu] at ihlen ⊢ <;>
          omega
    · rw [acquire_neg w L u st hp] at h
      dsimp only at h
      rw [if_neg (by simp)] at h
      have hbnd' : ∀ s ∈ DistributedRateLimiter.prune w u st, ∀ x ∈ ts, s ≤ x := by
        intro s hs x hx
        exact hbnd s (List.mem_of_mem_filter hs) x (List.mem_cons_of_mem u hx)
      obtain ⟨ihlen, iht⟩ := ih (DistributedRateLimiter.prune w u st) S₁ S₂ t hsort' hbnd' h
      have hut : u ≤ t := hu t iht
      have hlen := congrArg List.length (filter_prune_eq w u t st hut)
      refine ⟨?_, List.mem_cons_of_mem u iht⟩
      simp only [List.filter_append, List.length_append] at ihlen ⊢
      omega

theorem window_of_splits (w L : Nat) :
    ∀ S : List Nat, S.Pairwise (· ≤ ·) →
      (∀ (S₁ S₂ : List Nat) (t : Nat), S = S₁ ++ t :: S₂ →
        ((S₁.filter (fun s => t < s + w)).length < L)) →
      ∀ a, ((S.filter (fun t => decide (a < t) && decide (t ≤ a + w))).length ≤ L) := by
  intro S
  induction S using List.reverseRecOn with
  | nil => intro _ _ a; simp
  | append_singleton S' t ihS =>
    intro hsort hsplit a
    have hsort' : S'.Pairwise (· ≤ ·) := (List.pairwise_append.mp hsort).1
    have hsplit' : ∀ (S₁ S₂ : List Nat) (u : Nat), S' = S₁ ++ u :: S₂ →
        ((S₁.filter (fun s => u < s + w)).length < L) := by
      intro S₁ S₂ u hdec
      exact hsplit S₁ (S₂ ++ [t]) u (by rw [hdec]; simp)
    have ih := ihS hsort' hsplit' a
    rw [List.filter_append]
    by_cases hin : (decide (a < t) && decide (t ≤ a + w)) = true
    · obtain ⟨h1, h2⟩ := Bool.and_eq_true_iff.mp hin
      have ha : a < t := of_decide_eq_true h1
      have hb : t ≤ a + w := of_decide_eq_true h2
      have hmono : (S'.filter (fun s => decide (a < s) && decide (s ≤ a + w))).Sublist
          (S'.filter (fun s => t < s + w)) := by
        apply List.monotone_filter_right
        intro s hs
        obtain ⟨hs1, _⟩ := Bool.and_eq_true_iff.mp hs
        have has : a < s := of_decide_eq_true hs1
        exact decide_eq_true (by omega)
      have hkey : (S'.filter (fun s => t < s + w)).length < L := hsplit S' [] t rfl
      have hlen : (S'.filter (fun s => decide (a < s) && decide (s ≤ a + w))).length
          ≤ (S'.filter (fun s => t < s + w)).length := hmono.length_le
      have hone : ([t].filter (fun s => decide (a < s) && decide (s ≤ a + w))) = [t] := by
        simp only [List.filter_cons, List.filter_nil, hin, if_true]
      rw [hone, List.length_append]
      simp only [List.length_singleton]
      omega
    · have hnil : ([t].filter (fun s => decide (a < s) && decide (s ≤ a + w))) = [] := by
        simp only [List.filter_cons, List.filter_nil]
        rw [if_neg hin]
      rw [hnil]
      simpa using ih

/-- C1 amended: the `acquire` Lua script runs atomically in the shared
store, so an interleaving of concurrent callers is a serialization of
script runs, each carrying the `Date.now()` its caller captured.  For
every serialization whose clock readings arrive in non-decreasing order
(a fleet with agreeing clocks and no capture-to-arrival reordering),
started from an empty window, the number of successful acquisitions —
and hence upstream calls admitted — whose timestamps fall in any
60-second window `(a, a + 60000]` never exceeds the configured limit
`L`: each acquire prunes entries older than the window, counts the
remainder, and inserts a new entry only if the count is under the
limit.  Without that ordering the bound can be breached (see the
counterexample). -/
theorem rateLimiter_window_bound (L : Nat) (ts : List Nat)
    (hsorted : ts.Pairwise (· ≤ ·)) (a : Nat) :
    ((DistributedRateLimiter.successTimes DistributedRateLimiter.windowMs L [] ts).filter
      (fun t => decide (a < t) && decide (t ≤ a + DistributedRateLimiter.windowMs))).length
      ≤ L := by
  apply window_of_splits DistributedRateLimiter.windowMs L
  · exact hsorted.sublist
      (successTimes_sublist DistributedRateLimiter.windowMs L ts [])
  · intro S₁ S₂ t hsplit
    have h := (successTimes_split DistributedRateLimiter.windowMs L ts [] S₁ S₂ t
      hsorted (by simp) hsplit).1
    simpa using h

/-- Witness for C1 on a concrete sorted history: with limit 2, a burst
of four calls at times 0, 0, 1, 70000 admits at most 2 in any minute
window. -/
theorem rateLimiter_window_bound_witness :
    ((DistributedRateLimiter.successTimes DistributedRateLimiter.windowMs 2 []
        [0, 0, 1, 70000]).filter
      (fun t => decide (0 < t) && decide (t ≤ 0 + DistributedRateLimiter.windowMs))).length
      ≤ 2 :=
  rateLimiter_window_bound 2 [0, 0, 1, 70000] (by decide) 0

/-- C1 counterexample: with the real parameters (limit 60, 60000 ms
window), the serialized history `1, 2, …, 60, 70001, 60000` — a real
interleaving once fleet clock skew or capture-to-arrival jitter
reorders the client-captured `now` values — admits every call: the run
stamped 70001 first prunes the sixty in-window entries, so the
out-of-order run stamped 60000 is admitted too, and the window
`(0, 60000]` then holds 61 successful acquisitions, exceeding the
per-minute limit of 60. -/
theorem rateLimiter_window_bound_cex :
    60 < ((DistributedRateLimiter.successTimes DistributedRateLimiter.windowMs 60 []
        (((List.range 60).map (fun i => i + 1)) ++ [70001, 60000])).filter
      (fun t => decide (0 < t) && decide (t ≤ 0 + DistributedRateLimiter.windowMs))).length := by
  set_option maxRecDepth 4000 in decide
